import Mathlib

/-
Verification of the prefab save module (crates/prefab/src/save.rs) of the
space_editor repository.  The module is shallowly embedded: the live ECS world
becomes an association list from entities to their component data, Bevy systems
become pure functions from worlds (plus the resources they read) to worlds
and/or explicit effect records (spawned file tasks, toast notifications, memory
cache updates, the next SaveState).  The RON encoder, which is an external
opaque service, is a function parameter of type DynamicScene → Except String
String.
-/

/-- Entities are opaque process-local identifiers; we model them as naturals. -/
abbrev Entity := Nat

/-- Runtime type identifiers (std::any::TypeId) are modelled as naturals. -/
abbrev TypeId := Nat

/-- An attached data item (a reflected component): a runtime type identifier
plus an opaque payload. -/
structure DataItem where
  typeId : TypeId
  payload : String
deriving DecidableEq

/-- The per-entity component data relevant to save.rs: the PrefabMarker and
SceneAutoChild marker components, the Children relation (present iff the
entity has the component), the transient ChildrenPrefab component, the Name
component, and the remaining reflected data items. -/
structure EntityData where
  prefabMarker : Bool
  sceneAutoChild : Bool
  children : Option (List Entity)
  childrenPrefab : Option (List Entity)
  name : Option String
  dataItems : List DataItem
deriving DecidableEq

/-- The live world: entities paired with their component data, in spawn
(query-iteration) order. -/
abbrev World := List (Entity × EntityData)

/-- A world is well formed when no entity identifier occurs twice. -/
def WellFormed (w : World) : Prop := (w.map Prod.fst).Nodup

/-- ChildrenPrefab component: holds the children entity references that should
be serialized (save.rs lines 13-23). -/
structure ChildrenPrefab where
  refs : List Entity
deriving DecidableEq

/-- Modelled from the spec: the external identifier remapper (Bevy's
EntityMapper, an external collaborator of this module).  It holds the table of
already-assigned snapshot-local identifiers and the next fresh local slot;
mapping an entity that has no assignment reserves a fresh placeholder local
identifier for it, so mapping is total. -/
structure EntityMapperState where
  assigned : List (Entity × Entity)
  next : Entity
deriving DecidableEq

/-- Invariant of a mapper state: every assigned local identifier is below the
next fresh slot, so fresh placeholders never collide with assigned ones. -/
def EntityMapperState.inv (m : EntityMapperState) : Prop :=
  ∀ p ∈ m.assigned, p.2 < m.next

/-- One mapper state extends another: the next slot never decreases, existing
assignments survive, and any assignment added for a previously-unassigned
entity sits at or above the older state's next slot. -/
def MapperExtends (m m' : EntityMapperState) : Prop :=
  m.next ≤ m'.next ∧
  (∀ e l, m.assigned.lookup e = some l → m'.assigned.lookup e = some l) ∧
  (∀ e l, m.assigned.lookup e = none → m'.assigned.lookup e = some l → m.next ≤ l)

/-- Map one entity reference: return its assigned local identifier when it has
one, otherwise reserve a fresh placeholder local identifier. -/
def mapEntity (m : EntityMapperState) (e : Entity) : Entity × EntityMapperState :=
  match m.assigned.lookup e with
  | some l => (l, m)
  | none => (m.next, { assigned := m.assigned ++ [(e, m.next)], next := m.next + 1 })

/-- Map a list of entity references left to right, threading the mapper
state. -/
def mapEntitiesList : EntityMapperState → List Entity → List Entity × EntityMapperState
  | m, [] => ([], m)
  | m, e :: es =>
    ((mapEntity m e).1 :: (mapEntitiesList (mapEntity m e).2 es).1,
     (mapEntitiesList (mapEntity m e).2 es).2)

/-- ChildrenPrefab::map_entities (save.rs lines 25-34): every stored entity
reference is rewritten through the mapper. -/
def ChildrenPrefab.map_entities (c : ChildrenPrefab) (m : EntityMapperState) :
    ChildrenPrefab × EntityMapperState :=
  (ChildrenPrefab.mk (mapEntitiesList m c.refs).1, (mapEntitiesList m c.refs).2)

/-- prepare_children (save.rs lines 144-153): for every entity with
PrefabMarker, without SceneAutoChild and with a Children component, insert a
ChildrenPrefab holding a copy of the live child list. -/
def prepare_children (w : World) : World :=
  w.map (fun p =>
    if p.2.prefabMarker && !p.2.sceneAutoChild then
      match p.2.children with
      | some cs => (p.1, { p.2 with childrenPrefab := some cs })
      | none => p
    else p)

/-- delete_prepared_children (save.rs lines 155-159): remove the
ChildrenPrefab component from every entity that has one. -/
def delete_prepared_children (w : World) : World :=
  w.map (fun p =>
    if p.2.childrenPrefab.isSome then (p.1, { p.2 with childrenPrefab := none })
    else p)

/-- The two-valued save state machine (save.rs lines 90-95). -/
inductive SaveState
  | Save
  | Idle
deriving DecidableEq

/-- The save path selector (space_shared::EditorPrefabPath): a named file or
the in-process memory cache slot. -/
inductive EditorPrefabPath
  | File (path : String)
  | MemoryCache
deriving DecidableEq

/-- SaveConfig resource (save.rs lines 83-86). -/
structure SaveConfig where
  path : Option EditorPrefabPath
deriving DecidableEq

/-- Toast notification kinds (space_shared::toast::ToastKind). -/
inductive ToastKind
  | Warning
  | Error
deriving DecidableEq

/-- A toast notification sent to the editor UI. -/
structure ToastMessage where
  text : String
  kind : ToastKind
deriving DecidableEq

/-- The portable scene: an ordered list of extracted entities, each with its
allow-listed reflected data items. -/
structure DynamicScene where
  entities : List (Entity × List DataItem)
deriving DecidableEq

/-- DynamicSceneBuilder extraction with an allow-list filter (save.rs lines
185-192 and 263-270): each listed entity contributes exactly its data items
whose type identifier is in the allow-list. -/
def extract_entities (w : World) (allow : List TypeId) (es : List Entity) :
    DynamicScene :=
  DynamicScene.mk (es.map (fun e =>
    (e, match w.lookup e with
        | some d => d.dataItems.filter (fun it => allow.contains it.typeId)
        | none => [])))

/-- The whole-scene root selection (save.rs lines 165-167): every entity with
PrefabMarker and without SceneAutoChild, in world order. -/
def rootEntities (w : World) : List Entity :=
  (w.filter (fun p => p.2.prefabMarker && !p.2.sceneAutoChild)).map Prod.fst

/-- The observable effects of one serialize_scene pass: toast notifications,
the built portable scene, the file-write tasks spawned on the IO pool, the
memory cache slot update (none means unchanged), and the next SaveState. -/
structure SceneSaveOutput where
  notifications : List ToastMessage
  scene : DynamicScene
  fileTasks : List (String × String)
  cacheUpdate : Option DynamicScene
  nextState : SaveState
deriving DecidableEq

/-- serialize_scene (save.rs lines 162-238): select the roots, warn on an
empty selection, build the allow-listed portable scene, encode it, and on
success persist to the configured destination (file task or memory cache);
on encoder failure emit an error toast; always set the next state to Idle. -/
def serialize_scene (cfg : SaveConfig) (allow : List TypeId)
    (serializeRon : DynamicScene → Except String String) (w : World) :
    SceneSaveOutput :=
  let entities := rootEntities w
  let warns : List ToastMessage :=
    if entities.isEmpty then [ToastMessage.mk "Saving empty scene" ToastKind.Warning]
    else []
  let scene := extract_entities w allow entities
  match serializeRon scene with
  | Except.ok str =>
    match cfg.path with
    | some (EditorPrefabPath.File p) =>
      SceneSaveOutput.mk warns scene [(p, str)] none SaveState.Idle
    | some EditorPrefabPath.MemoryCache =>
      SceneSaveOutput.mk warns scene [] (some scene) SaveState.Idle
    | none =>
      SceneSaveOutput.mk warns scene [] none SaveState.Idle
  | Except.error e =>
    SceneSaveOutput.mk
      (warns ++ [ToastMessage.mk ("failed to serialize prefab: " ++ e) ToastKind.Error])
      scene [] none SaveState.Idle

/-- The whole-scene save pipeline scheduled on OnEnter(SaveState::Save)
(save.rs lines 59-68): prepare_children, command barrier, serialize_scene,
delete_prepared_children.  Returns the resulting world and the pass's
effects. -/
def save_pipeline (cfg : SaveConfig) (allow : List TypeId)
    (serializeRon : DynamicScene → Except String String) (w : World) :
    World × SceneSaveOutput :=
  let w1 := prepare_children w
  let out := serialize_scene cfg allow serializeRon w1
  (delete_prepared_children w1, out)

/-- add_children_recursive (save.rs lines 292-299): append the entity's
children from the index, then recurse into each child in order.  The Rust
recursion is unbounded (the source assumes an acyclic index); the fuel
parameter bounds the recursion depth and agrees with the source on every
acyclic index once the fuel exceeds the tree depth. -/
def add_children_recursive (fuel : Nat) (childrenIndex : List (Entity × List Entity))
    (entity : Entity) (entities : List Entity) : List Entity :=
  match fuel with
  | 0 => entities
  | n + 1 =>
    match childrenIndex.lookup entity with
    | some cs => cs.foldl (fun acc c => add_children_recursive n childrenIndex c acc)
        (entities ++ cs)
    | none => entities

/-- Follows the spec's words (section 4.1): the depth-first order in which each
visited entity's children are appended immediately, in index order, before
recursing into each child in order. -/
def closureSpecOrder (fuel : Nat) (childrenIndex : List (Entity × List Entity))
    (entity : Entity) : List Entity :=
  match fuel with
  | 0 => []
  | n + 1 =>
    match childrenIndex.lookup entity with
    | some cs => cs ++ (cs.map (fun c => closureSpecOrder n childrenIndex c)).flatten
    | none => []

/-- The complete parent-to-children index of the live graph: every entity that
has a Children component, with its child list. -/
def fullChildrenIndex (w : World) : List (Entity × List Entity) :=
  w.filterMap (fun p =>
    match p.2.children with
    | some cs => some (p.1, cs)
    | none => none)

/-- The children index built by serialize_prefab (save.rs line 243-245): the
query is filtered With PrefabMarker, so only entities carrying PrefabMarker
contribute their child lists (SceneAutoChild is not filtered out). -/
def prefabChildrenIndex (w : World) : List (Entity × List Entity) :=
  w.filterMap (fun p =>
    match p.2.children with
    | some cs => if p.2.prefabMarker then some (p.1, cs) else none
    | none => none)

/-- Whether an entity carries PrefabMarker according to the world. -/
def markerB (w : World) (e : Entity) : Bool :=
  match w.lookup e with
  | some d => d.prefabMarker
  | none => false

/-- The entity set handed to the builder for one per-entity save event
(save.rs lines 251-254): the requested entity followed by its recursive
children over the marker-filtered index. -/
def serialize_prefab_entities (fuel : Nat) (w : World) (e : Entity) : List Entity :=
  add_children_recursive fuel (prefabChildrenIndex w) e [e]

/-- PrefabMade event (save.rs lines 139-142). -/
structure PrefabMade where
  entity : Entity
deriving DecidableEq

/-- The display name used for a per-entity save's file, empty when absent. -/
def nameOf (w : World) (e : Entity) : String :=
  (((w.lookup e).bind (fun d => d.name)).getD "")

/-- The observable effects of one serialize_prefab pass: spawned file-write
tasks in event order, error logs, and the panic message when the pass halted
abruptly (a Rust unwrap on a missing Name component). -/
structure PrefabSaveOutput where
  fileTasks : List (String × String)
  errors : List String
  panicMsg : Option String
deriving DecidableEq

/-- serialize_prefab (save.rs lines 240-290): drain the PrefabMade event queue
in arrival order; for each event resolve the Name (unwrap panics when it is
absent, halting the pass: events already processed keep their spawned tasks),
collect the entity plus its recursive children over the marker-filtered index,
build the allow-listed scene, encode it, and on success spawn a file task at
path + backslash + name + ".scn.ron"; on encoder failure log an error. -/
def serialize_prefab (fuel : Nat) (prefabsPath : String) (allow : List TypeId)
    (serializeRon : DynamicScene → Except String String) (w : World) :
    List PrefabMade → PrefabSaveOutput
  | [] => PrefabSaveOutput.mk [] [] none
  | ev :: rest =>
    match (w.lookup ev.entity).bind (fun d => d.name) with
    | none => PrefabSaveOutput.mk [] [] (some "called Option::unwrap() on a None value")
    | some name =>
      let prefab := extract_entities w allow (serialize_prefab_entities fuel w ev.entity)
      let restOut := serialize_prefab fuel prefabsPath allow serializeRon w rest
      match serializeRon prefab with
      | Except.ok str =>
        PrefabSaveOutput.mk
          ((prefabsPath ++ "\\" ++ name ++ ".scn.ron", str) :: restOut.fileTasks)
          restOut.errors restOut.panicMsg
      | Except.error e =>
        PrefabSaveOutput.mk restOut.fileTasks
          (("failed to serialize prefab: " ++ e) :: restOut.errors) restOut.panicMsg

/-- Whether a toast notification is an error notification. -/
def ToastMessage.isError (t : ToastMessage) : Bool :=
  match t.kind with
  | ToastKind.Error => true
  | ToastKind.Warning => false

/-- Whether a toast notification is a warning notification. -/
def ToastMessage.isWarning (t : ToastMessage) : Bool :=
  match t.kind with
  | ToastKind.Warning => true
  | ToastKind.Error => false

/-- Example world: entity 0 is a root with live child 1; entity 1 carries the
Auto-Child marker (and the Root Marker) and owns one reflected data item. -/
def exWorldAuto : World :=
  [(0, EntityData.mk true false (some [1]) none none [DataItem.mk 1 "root-data"]),
   (1, EntityData.mk true true none none none [DataItem.mk 1 "auto-data"])]

/-- Example world: a single marked root entity with no Name component. -/
def exWorldNoName : World :=
  [(0, EntityData.mk true false none none none [])]

/-- Example world: root 0 (marked, named) has child 1; entity 1 carries no
PrefabMarker and has child 2. -/
def exWorldUnmarked : World :=
  [(0, EntityData.mk true false (some [1]) none (some "foo") []),
   (1, EntityData.mk false false (some [2]) none none []),
   (2, EntityData.mk false false none none none [])]

/-- Example world: a single marked root entity named "foo". -/
def exWorldNamed : World :=
  [(0, EntityData.mk true false none none (some "foo") [])]

/-- Helper: the accumulator-passing recursion equals the accumulator followed
by the specification's depth-first order, at every fuel. -/
lemma add_children_recursive_eq (fuel : Nat) :
    ∀ (m : List (Entity × List Entity)) (e : Entity) (acc : List Entity),
      add_children_recursive fuel m e acc = acc ++ closureSpecOrder fuel m e := by
  induction fuel with
  | zero => intro m e acc; simp [add_children_recursive, closureSpecOrder]
  | succ n ih =>
    intro m e acc
    cases h : m.lookup e with
    | none => simp [add_children_recursive, closureSpecOrder, h]
    | some cs =>
      have inner : ∀ (l : List Entity) (init : List Entity),
          l.foldl (fun a c => add_children_recursive n m c a) init
            = init ++ (l.map (fun c => closureSpecOrder n m c)).flatten := by
        intro l
        induction l with
        | nil => intro init; simp
        | cons c l' ihl =>
          intro init
          simp only [List.foldl_cons, List.map_cons, List.flatten_cons]
          rw [ihl, ih]
          simp [List.append_assoc]
      simp only [add_children_recursive, closureSpecOrder, h]
      rw [inner]
      simp [List.append_assoc]

/-- Helper: a successful association-list lookup survives appending. -/
lemma lookup_append_some : ∀ (l : List (Entity × Entity)) {x v : Entity}
    (t : List (Entity × Entity)), l.lookup x = some v → (l ++ t).lookup x = some v := by
  intro l
  induction l with
  | nil => intro x v t h; simp [List.lookup] at h
  | cons a l' ih =>
    intro x v t h
    obtain ⟨k, b⟩ := a
    simp only [List.lookup, List.cons_append] at h ⊢
    cases hx : (x == k) with
    | true => simp [hx] at h ⊢; exact h
    | false => simp [hx] at h ⊢; exact ih t h

/-- Helper: a failed association-list lookup defers to the appended tail. -/
lemma lookup_append_none : ∀ (l : List (Entity × Entity)) {x : Entity}
    (t : List (Entity × Entity)), l.lookup x = none → (l ++ t).lookup x = t.lookup x := by
  intro l
  induction l with
  | nil => intro x t _; simp
  | cons a l' ih =>
    intro x t h
    obtain ⟨k, b⟩ := a
    simp only [List.lookup, List.cons_append] at h ⊢
    cases hx : (x == k) with
    | true => simp only [hx] at h; exact Option.noConfusion h
    | false => simp only [hx] at h ⊢; exact ih t h

/-- Helper: extension is reflexive. -/
lemma mapperExtends_refl (m : EntityMapperState) : MapperExtends m m := by
  refine ⟨le_refl _, fun _ _ h => h, fun e l h1 h2 => ?_⟩
  rw [h1] at h2
  cases h2

/-- Helper: extension is transitive. -/
lemma mapperExtends_trans {m1 m2 m3 : EntityMapperState}
    (h12 : MapperExtends m1 m2) (h23 : MapperExtends m2 m3) : MapperExtends m1 m3 := by
  obtain ⟨hn12, hs12, hf12⟩ := h12
  obtain ⟨hn23, hs23, hf23⟩ := h23
  refine ⟨le_trans hn12 hn23, fun e l h => hs23 e l (hs12 e l h), fun e l h1 h3 => ?_⟩
  cases h2 : m2.assigned.lookup e with
  | some v =>
    have hv := hs23 e v h2
    have hvl : v = l := by
      rw [hv] at h3
      exact Option.some.inj h3
    exact hvl ▸ hf12 e v h1 h2
  | none => exact le_trans hn12 (hf23 e l h2 h3)

/-- Helper: mapping one entity preserves the mapper invariant and extends the
state. -/
lemma mapEntity_extends (m : EntityMapperState) (e : Entity) (hm : m.inv) :
    MapperExtends m (mapEntity m e).2 ∧ (mapEntity m e).2.inv := by
  cases h : m.assigned.lookup e with
  | some l =>
    simp only [mapEntity, h]
    exact ⟨mapperExtends_refl m, hm⟩
  | none =>
    simp only [mapEntity, h]
    constructor
    · refine ⟨Nat.le_succ _, fun x v hx => lookup_append_some _ _ hx, fun x v hx1 hx2 => ?_⟩
      rw [lookup_append_none _ _ hx1] at hx2
      simp only [List.lookup] at hx2
      cases hxe : (x == e) with
      | true =>
        simp only [hxe] at hx2
        exact le_of_eq (Option.some.inj hx2)
      | false =>
        simp only [hxe] at hx2
        exact Option.noConfusion hx2
    · intro p hp
      simp only [List.mem_append, List.mem_singleton] at hp
      rcases hp with hp | hp
      · exact Nat.lt_succ_of_lt (hm p hp)
      · rw [hp]; exact Nat.lt_succ_self _

/-- Helper: the full behaviour of mapping a reference list: the output has one
local identifier per input reference; already-assigned references keep their
assigned identifier; unassigned references receive an identifier at or above
the initial next slot.  The resulting state keeps the invariant and extends
the initial one. -/
lemma mapEntitiesList_spec : ∀ (es : List Entity) (m : EntityMapperState), m.inv →
    (mapEntitiesList m es).1.length = es.length ∧
    (mapEntitiesList m es).2.inv ∧
    MapperExtends m (mapEntitiesList m es).2 ∧
    (∀ i, i < es.length →
      (∀ l, m.assigned.lookup (es.getD i 0) = some l →
        (mapEntitiesList m es).1.getD i 0 = l) ∧
      (m.assigned.lookup (es.getD i 0) = none →
        m.next ≤ (mapEntitiesList m es).1.getD i 0)) := by
  intro es
  induction es with
  | nil =>
    intro m hm
    refine ⟨rfl, hm, mapperExtends_refl m, ?_⟩
    intro i hi
    simp at hi
  | cons e rest ih =>
    intro m hm
    obtain ⟨hext1, hm1⟩ := mapEntity_extends m e hm
    obtain ⟨hlen, hinv, hext2, hidx⟩ := ih (mapEntity m e).2 hm1
    refine ⟨by simpa [mapEntitiesList] using hlen, by simpa [mapEntitiesList] using hinv,
      mapperExtends_trans hext1 hext2, ?_⟩
    intro i hi
    cases i with
    | zero =>
      constructor
      · intro l hl
        simp only [mapEntitiesList, List.getD_cons_zero]
        simp only [List.getD_cons_zero] at hl
        simp [mapEntity, hl]
      · intro hl
        simp only [mapEntitiesList, List.getD_cons_zero]
        simp only [List.getD_cons_zero] at hl
        simp [mapEntity, hl]
    | succ j =>
      have hj : j < rest.length := by simpa using hi
      constructor
      · intro l hl
        simp only [List.getD_cons_succ] at hl ⊢
        simp only [mapEntitiesList]
        exact (hidx j hj).1 l (hext1.2.1 _ l hl)
      · intro hl
        simp only [List.getD_cons_succ] at hl ⊢
        simp only [mapEntitiesList]
        cases h1 : (mapEntity m e).2.assigned.lookup (rest.getD j 0) with
        | some v =>
          have hv := (hidx j hj).1 v h1
          have hle := hext1.2.2 _ v hl h1
          simp only [mapEntitiesList, List.getD_cons_succ, hv]
          exact hle
        | none =>
          have := (hidx j hj).2 h1
          exact le_trans hext1.1 this

/-- Helper: in a well-formed world, two member pairs with the same entity are
the same pair. -/
lemma wf_pair_eq : ∀ (w : World), WellFormed w →
    ∀ p ∈ w, ∀ q ∈ w, p.1 = q.1 → p = q := by
  intro w
  induction w with
  | nil => intro _ p hp; simp at hp
  | cons a w' ih =>
    intro hw p hp q hq hpq
    simp only [WellFormed, List.map_cons, List.nodup_cons] at hw
    obtain ⟨ha, hw'⟩ := hw
    simp only [List.mem_cons] at hp hq
    rcases hp with hp | hp <;> rcases hq with hq | hq
    · rw [hp, hq]
    · exfalso
      apply ha
      rw [hp] at hpq
      rw [hpq]
      exact List.mem_map_of_mem Prod.fst hq
    · exfalso
      apply ha
      rw [hq] at hpq
      rw [← hpq]
      exact List.mem_map_of_mem Prod.fst hp
    · exact ih hw' p hp q hq hpq

/-- Helper: in a well-formed world, lookup finds exactly the member pair. -/
lemma wf_lookup_mem : ∀ (w : World), WellFormed w →
    ∀ (e : Entity) (d : EntityData), (e, d) ∈ w → w.lookup e = some d := by
  intro w
  induction w with
  | nil => intro _ e d h; simp at h
  | cons a w' ih =>
    intro hw e d h
    obtain ⟨k, b⟩ := a
    simp only [WellFormed, List.map_cons, List.nodup_cons] at hw
    obtain ⟨ha, hw'⟩ := hw
    simp only [List.mem_cons] at h
    rcases h with h | h
    · cases h
      simp [List.lookup]
    · have hne : e ≠ k := by
        intro hek
        apply ha
        rw [← hek]
        exact List.mem_map_of_mem Prod.fst h
      simp only [List.lookup]
      have : (e == k) = false := beq_false_of_ne hne
      simp [this]
      exact ih hw' e d h

/-- Helper: serialize_scene always transitions the state machine back to
Idle, for every destination and every encoder verdict. -/
lemma serialize_scene_idle (cfg : SaveConfig) (allow : List TypeId)
    (serializeRon : DynamicScene → Except String String) (w : World) :
    (serialize_scene cfg allow serializeRon w).nextState = SaveState.Idle := by
  simp only [serialize_scene]
  cases hs : serializeRon (extract_entities w allow (rootEntities w)) with
  | ok s =>
    cases hc : cfg.path with
    | none => rfl
    | some v => cases v <;> rfl
  | error e => rfl

/-- Helper: the portable scene serialize_scene builds is the allow-listed
extraction of the selected roots, for every destination and encoder verdict. -/
lemma serialize_scene_scene (cfg : SaveConfig) (allow : List TypeId)
    (serializeRon : DynamicScene → Except String String) (w : World) :
    (serialize_scene cfg allow serializeRon w).scene
      = extract_entities w allow (rootEntities w) := by
  simp only [serialize_scene]
  cases hs : serializeRon (extract_entities w allow (rootEntities w)) with
  | ok s =>
    cases hc : cfg.path with
    | none => rfl
    | some v => cases v <;> rfl
  | error e => rfl

/-- Helper: filtering a filterMap pushes the filter into the produced
option. -/
lemma filter_filterMap_push {α β : Type} (f : α → Option β) (p : β → Bool) :
    ∀ l : List α, (l.filterMap f).filter p = l.filterMap (fun a => (f a).filter p) := by
  intro l
  induction l with
  | nil => rfl
  | cons a l' ih =>
    cases hfa : f a with
    | none => simp [List.filterMap_cons, hfa, Option.filter, ih]
    | some b =>
      cases hpb : p b with
      | true => simp [List.filterMap_cons, hfa, hpb, Option.filter, List.filter_cons, ih]
      | false => simp [List.filterMap_cons, hfa, hpb, Option.filter, List.filter_cons, ih]

/-- Helper: on a well-formed world the children index built by
serialize_prefab is exactly the complete live index restricted to the entities
carrying PrefabMarker. -/
lemma prefabChildrenIndex_eq_filter (w : World) (hw : WellFormed w) :
    prefabChildrenIndex w = (fullChildrenIndex w).filter (fun p => markerB w p.1) := by
  unfold prefabChildrenIndex fullChildrenIndex
  rw [filter_filterMap_push]
  apply List.filterMap_congr
  intro q hq
  have hl : w.lookup q.1 = some q.2 := wf_lookup_mem w hw q.1 q.2 hq
  cases hc : q.2.children with
  | none => simp [Option.filter]
  | some cs =>
    cases hm : q.2.prefabMarker with
    | true => simp [Option.filter, markerB, hl, hm]
    | false => simp [Option.filter, markerB, hl, hm]

/-- Helper: when every queued event targets an entity with a Name component,
the per-entity drain never panics. -/
lemma serialize_prefab_no_panic (fuel : Nat) (pp : String) (allow : List TypeId)
    (serializeRon : DynamicScene → Except String String) (w : World) :
    ∀ events : List PrefabMade,
      (∀ ev ∈ events, ((w.lookup ev.entity).bind (fun d => d.name)).isSome = true) →
      (serialize_prefab fuel pp allow serializeRon w events).panicMsg = none := by
  intro events
  induction events with
  | nil => intro _; rfl
  | cons ev rest ih =>
    intro h
    have hev := h ev (List.mem_cons_self ev rest)
    obtain ⟨nm, hnm⟩ := Option.isSome_iff_exists.mp hev
    have hrest := ih (fun e he => h e (List.mem_cons_of_mem ev he))
    simp only [serialize_prefab, hnm]
    cases he : serializeRon (extract_entities w allow
        (serialize_prefab_entities fuel w ev.entity)) <;> simp [he, hrest]

/-- Helper: with every queued event targeting a named entity and a
total encoder, the drain produces exactly one file task per event, in arrival
order, at directory, backslash, name, ".scn.ron", with no error log and no
panic. -/
lemma serialize_prefab_drain (fuel : Nat) (pp : String) (allow : List TypeId)
    (ronOf : DynamicScene → String) (w : World) :
    ∀ events : List PrefabMade,
      (∀ ev ∈ events, ((w.lookup ev.entity).bind (fun d => d.name)).isSome = true) →
      (serialize_prefab fuel pp allow (fun s => Except.ok (ronOf s)) w events).fileTasks.map
          Prod.fst
        = events.map (fun ev => pp ++ "\\" ++ nameOf w ev.entity ++ ".scn.ron") ∧
      (serialize_prefab fuel pp allow (fun s => Except.ok (ronOf s)) w events).errors = [] ∧
      (serialize_prefab fuel pp allow (fun s => Except.ok (ronOf s)) w events).panicMsg
        = none := by
  intro events
  induction events with
  | nil => intro _; exact ⟨rfl, rfl, rfl⟩
  | cons ev rest ih =>
    intro h
    have hev := h ev (List.mem_cons_self ev rest)
    obtain ⟨nm, hnm⟩ := Option.isSome_iff_exists.mp hev
    obtain ⟨ih1, ih2, ih3⟩ := ih (fun e he => h e (List.mem_cons_of_mem ev he))
    have hname : nameOf w ev.entity = nm := by simp [nameOf, hnm]
    simp only [serialize_prefab, hnm]
    refine ⟨?_, by simpa using ih2, by simpa using ih3⟩
    simp only [List.map_cons]
    rw [hname]
    simp [ih1]

/-- C1: identifier remapping of a ChildrenPrefab record is total: every
embedded entity reference is rewritten (one output per input); a reference to
an entity in the selected set (the mapper's assignment table) becomes that
entity's snapshot-local identifier; a reference to an entity outside the set
becomes a reserved placeholder local identifier at or above the next fresh
slot, distinct from every in-set identifier; no input makes the remap fail. -/
theorem C1_remap_total (c : ChildrenPrefab) (m : EntityMapperState) (hm : m.inv) :
    (c.map_entities m).1.refs.length = c.refs.length ∧
    (∀ i, i < c.refs.length →
      (∀ l, m.assigned.lookup (c.refs.getD i 0) = some l →
        (c.map_entities m).1.refs.getD i 0 = l) ∧
      (m.assigned.lookup (c.refs.getD i 0) = none →
        m.next ≤ (c.map_entities m).1.refs.getD i 0 ∧
        ∀ p ∈ m.assigned, (c.map_entities m).1.refs.getD i 0 ≠ p.2)) := by
  obtain ⟨hlen, _hinv, _hext, hidx⟩ := mapEntitiesList_spec c.refs m hm
  refine ⟨hlen, fun i hi => ⟨(hidx i hi).1, fun hnone => ?_⟩⟩
  have h2 := (hidx i hi).2 hnone
  refine ⟨h2, fun p hp => ?_⟩
  have h3 := hm p hp
  have h4 : m.next ≤ (c.map_entities m).1.refs.getD i 0 := h2
  intro heq
  rw [heq] at h4
  exact absurd h4 (Nat.not_le_of_lt h3)

/-- Witness for C1 at a concrete mapper (selected set 10 and 11, local ids 0
and 1, next slot 2) and record [10, 99, 11, 99]: all four references are
rewritten, in-set 10 keeps local id 0, out-of-set 99 gets a placeholder at or
past slot 2. -/
theorem C1_remap_total_witness :
    (EntityMapperState.mk [(10, 0), (11, 1)] 2).inv ∧
    ((ChildrenPrefab.mk [10, 99, 11, 99]).map_entities
      (EntityMapperState.mk [(10, 0), (11, 1)] 2)).1.refs.length = 4 ∧
    ((ChildrenPrefab.mk [10, 99, 11, 99]).map_entities
      (EntityMapperState.mk [(10, 0), (11, 1)] 2)).1.refs.getD 0 0 = 0 ∧
    2 ≤ ((ChildrenPrefab.mk [10, 99, 11, 99]).map_entities
      (EntityMapperState.mk [(10, 0), (11, 1)] 2)).1.refs.getD 1 0 := by
  have hm : (EntityMapperState.mk [(10, 0), (11, 1)] 2).inv := by
    intro p hp
    simp only [List.mem_cons, List.not_mem_nil, or_false] at hp
    rcases hp with hp | hp <;> simp [hp]
  have h := C1_remap_total (ChildrenPrefab.mk [10, 99, 11, 99])
    (EntityMapperState.mk [(10, 0), (11, 1)] 2) hm
  refine ⟨hm, by simpa using h.1, ?_, ?_⟩
  · exact (h.2 0 (by decide)).1 0 (by decide)
  · exact ((h.2 1 (by decide)).2 (by decide)).1

/-- C2: after one whole-scene save pass (prepare_children, barrier,
serialize_scene, delete_prepared_children), whatever the encoder answered and
wherever the output was destined, no entity of the resulting world holds a
ChildrenPrefab component. -/
theorem C2_teardown_unconditional (cfg : SaveConfig) (allow : List TypeId)
    (serializeRon : DynamicScene → Except String String) (w : World) :
    ((save_pipeline cfg allow serializeRon w).1).all
      (fun p => p.2.childrenPrefab.isNone) = true := by
  simp only [save_pipeline, delete_prepared_children, List.all_eq_true]
  intro p hp
  simp only [List.mem_map] at hp
  obtain ⟨q, _hq, hpq⟩ := hp
  subst hpq
  cases hcp : q.2.childrenPrefab with
  | none => simp [hcp]
  | some v => simp [hcp]

/-- C3: the Closure Collector: for every fuel, index, start entity and
accumulator it returns the accumulator followed by the specification's
depth-first order, in which each visited entity's children are appended
immediately, in index order, before recursing into each child in order; seeded
with the start entity it therefore starts with that entity; and on the index
where 0 has children 1 and 2 and 2 has child 3 it yields exactly 0, 1, 2, 3. -/
theorem C3_closure_collector :
    (∀ (fuel : Nat) (m : List (Entity × List Entity)) (e : Entity) (acc : List Entity),
      add_children_recursive fuel m e acc = acc ++ closureSpecOrder fuel m e) ∧
    (∀ (fuel : Nat) (m : List (Entity × List Entity)) (e : Entity),
      add_children_recursive fuel m e [e] = e :: closureSpecOrder fuel m e) ∧
    add_children_recursive 4 [(0, [1, 2]), (2, [3])] 0 [0] = [0, 1, 2, 3] := by
  refine ⟨fun fuel m e acc => add_children_recursive_eq fuel m e acc,
    fun fuel m e => by simpa using add_children_recursive_eq fuel m e [e], by decide⟩

/-- Counterexample for C4 as stated: in exWorldAuto the descendant closure of
selected root 0 reaches entity 1, which carries the Auto-Child marker, yet the
portable scene a whole-scene save produces contains only entity 0 — entity 1's
data does not appear in it as a descendant or otherwise. -/
theorem C4_counterexample :
    1 ∈ (0 :: closureSpecOrder 3 (fullChildrenIndex exWorldAuto) 0) ∧
    (exWorldAuto.lookup 1).map (fun d => d.sceneAutoChild) = some true ∧
    ((serialize_scene (SaveConfig.mk none) [1] (fun _ => Except.ok "") exWorldAuto).scene.entities.map
      Prod.fst) = [0] := by
  refine ⟨by decide, by decide, by rfl⟩

/-- C4 amended: a whole-scene save never selects an Auto-Child entity as an
independent root, and its data never appears in the produced portable scene at
all: the scene's entities are exactly the roots (PrefabMarker and no
SceneAutoChild), since serialize_scene computes no descendant closure. -/
theorem C4_auto_child_excluded (cfg : SaveConfig) (allow : List TypeId)
    (serializeRon : DynamicScene → Except String String) (w : World)
    (hw : WellFormed w) :
    (serialize_scene cfg allow serializeRon w).scene.entities.map Prod.fst
      = rootEntities w ∧
    ∀ p ∈ w, p.2.sceneAutoChild = true →
      p.1 ∉ (serialize_scene cfg allow serializeRon w).scene.entities.map Prod.fst := by
  have hmap : (serialize_scene cfg allow serializeRon w).scene.entities.map Prod.fst
      = rootEntities w := by
    rw [serialize_scene_scene]
    unfold extract_entities
    rw [List.map_map]
    exact List.map_id'' (fun x => rfl) _
  refine ⟨hmap, ?_⟩
  intro p hp hauto hmem
  rw [hmap] at hmem
  unfold rootEntities at hmem
  simp only [List.mem_map] at hmem
  obtain ⟨q, hq, hq1⟩ := hmem
  rw [List.mem_filter] at hq
  obtain ⟨hqw, hqpred⟩ := hq
  have hqp : q = p := wf_pair_eq w hw q hqw p hp hq1
  rw [hqp] at hqpred
  simp [hauto] at hqpred

/-- Witness for the amended C4 at exWorldAuto: the world is well formed and
the scene's entities are exactly the selected roots. -/
theorem C4_auto_child_excluded_witness :
    WellFormed exWorldAuto ∧
    (serialize_scene (SaveConfig.mk none) [1] (fun _ => Except.ok "") exWorldAuto).scene.entities.map
      Prod.fst = rootEntities exWorldAuto := by
  have hw : WellFormed exWorldAuto := by unfold WellFormed; decide
  exact ⟨hw, (C4_auto_child_excluded (SaveConfig.mk none) [1]
    (fun _ => Except.ok "") exWorldAuto hw).1⟩

/-- C5: when the encoder rejects the portable scene, serialize_scene spawns no
file task, leaves the memory cache slot unchanged, emits exactly one error
notification, and still transitions the state machine back to Idle. -/
theorem C5_encoder_failure (cfg : SaveConfig) (allow : List TypeId)
    (serializeRon : DynamicScene → Except String String) (w : World) (msg : String)
    (h : serializeRon (extract_entities w allow (rootEntities w)) = Except.error msg) :
    (serialize_scene cfg allow serializeRon w).fileTasks = [] ∧
    (serialize_scene cfg allow serializeRon w).cacheUpdate = none ∧
    ((serialize_scene cfg allow serializeRon w).notifications.filter
      ToastMessage.isError).length = 1 ∧
    (serialize_scene cfg allow serializeRon w).nextState = SaveState.Idle := by
  simp only [serialize_scene, h]
  cases he : (rootEntities w).isEmpty <;>
    simp [he, ToastMessage.isError, ToastMessage.isWarning]

/-- Witness for C5: a one-root world and an encoder that rejects everything. -/
theorem C5_encoder_failure_witness :
    (serialize_scene (SaveConfig.mk (some EditorPrefabPath.MemoryCache)) []
      (fun _ => Except.error "boom") exWorldNamed).fileTasks = [] ∧
    (serialize_scene (SaveConfig.mk (some EditorPrefabPath.MemoryCache)) []
      (fun _ => Except.error "boom") exWorldNamed).cacheUpdate = none ∧
    (serialize_scene (SaveConfig.mk (some EditorPrefabPath.MemoryCache)) []
      (fun _ => Except.error "boom") exWorldNamed).nextState = SaveState.Idle := by
  have h := C5_encoder_failure (SaveConfig.mk (some EditorPrefabPath.MemoryCache)) []
    (fun _ => Except.error "boom") exWorldNamed "boom" rfl
  exact ⟨h.1, h.2.1, h.2.2.2⟩

/-- Counterexample for C6 as stated: a per-entity save request for entity 0 of
exWorldNoName, which has no resolvable display name, makes serialize_prefab
halt with a panic on the main loop instead of converting the failure into a
log or notification. -/
theorem C6_counterexample :
    (serialize_prefab 3 "dir" [] (fun _ => Except.ok "") exWorldNoName
      [PrefabMade.mk 0]).panicMsg
      = some "called Option::unwrap() on a None value" := by
  rfl

/-- C6 amended: internal failures are caught and converted to logs or
notifications as long as every per-entity save request targets an entity with
a resolvable display name — under that condition the per-entity drain never
panics, for every encoder, and the whole-scene pass always returns the state
machine to Idle; a request for an entity with no Name component, however,
panics on the main loop. -/
theorem C6_no_crash_with_names (fuel : Nat) (pp : String) (allow : List TypeId)
    (serializeRon : DynamicScene → Except String String) (w : World)
    (events : List PrefabMade)
    (h : ∀ ev ∈ events, ((w.lookup ev.entity).bind (fun d => d.name)).isSome = true) :
    (serialize_prefab fuel pp allow serializeRon w events).panicMsg = none ∧
    ∀ cfg, (serialize_scene cfg allow serializeRon w).nextState = SaveState.Idle :=
  ⟨serialize_prefab_no_panic fuel pp allow serializeRon w events h,
   fun cfg => serialize_scene_idle cfg allow serializeRon w⟩

/-- Witness for the amended C6: a named entity and a failing encoder still
produce no panic. -/
theorem C6_no_crash_with_names_witness :
    (serialize_prefab 3 "dir" [] (fun _ => Except.error "boom") exWorldNamed
      [PrefabMade.mk 0]).panicMsg = none :=
  (C6_no_crash_with_names 3 "dir" [] (fun _ => Except.error "boom") exWorldNamed
    [PrefabMade.mk 0] (by decide)).1

/-- Counterexample for C7 as stated: in exWorldUnmarked entity 2 is reachable
from requested entity 0 through the live Children relation (0 has child 1, 1
has child 2), but entity 1 carries no PrefabMarker, so serialize_prefab's
marker-filtered children index drops entity 1's entry and the entity set
handed to the builder misses the reachable descendant 2. -/
theorem C7_counterexample :
    2 ∈ (0 :: closureSpecOrder 4 (fullChildrenIndex exWorldUnmarked) 0) ∧
    serialize_prefab_entities 4 exWorldUnmarked 0 = [0, 1] := by
  exact ⟨by decide, by decide⟩

/-- C7 amended: the entity set handed to the builder for a per-entity save is
the requested entity followed by its descendant closure over the children
index restricted to entities carrying PrefabMarker (the Auto-Child marker is
indeed not excluded, but children of intermediate entities without PrefabMarker
are not traversed). -/
theorem C7_per_entity_closure (fuel : Nat) (w : World) (e : Entity)
    (hw : WellFormed w) :
    serialize_prefab_entities fuel w e
      = e :: closureSpecOrder fuel
          ((fullChildrenIndex w).filter (fun p => markerB w p.1)) e := by
  unfold serialize_prefab_entities
  rw [add_children_recursive_eq, prefabChildrenIndex_eq_filter w hw]
  rfl

/-- Witness for the amended C7 at exWorldUnmarked. -/
theorem C7_per_entity_closure_witness :
    WellFormed exWorldUnmarked ∧
    serialize_prefab_entities 4 exWorldUnmarked 0
      = 0 :: closureSpecOrder 4
          ((fullChildrenIndex exWorldUnmarked).filter
            (fun p => markerB exWorldUnmarked p.1)) 0 := by
  have hw : WellFormed exWorldUnmarked := by unfold WellFormed; decide
  exact ⟨hw, C7_per_entity_closure 4 exWorldUnmarked 0 hw⟩

/-- C8: a whole-scene save that selects zero roots still completes: it builds
an empty portable scene, emits exactly one warning notification, and
transitions the state machine back to Idle, for every destination and every
encoder. -/
theorem C8_empty_scene (cfg : SaveConfig) (allow : List TypeId)
    (serializeRon : DynamicScene → Except String String) (w : World)
    (h : rootEntities w = []) :
    (serialize_scene cfg allow serializeRon w).scene.entities = [] ∧
    ((serialize_scene cfg allow serializeRon w).notifications.filter
      ToastMessage.isWarning).length = 1 ∧
    (serialize_scene cfg allow serializeRon w).nextState = SaveState.Idle := by
  refine ⟨?_, ?_, serialize_scene_idle cfg allow serializeRon w⟩
  · rw [serialize_scene_scene, h]
    rfl
  · simp only [serialize_scene, h]
    cases hs : serializeRon (extract_entities w allow []) with
    | ok s =>
      cases hc : cfg.path with
      | none => simp [hs, hc, ToastMessage.isWarning]
      | some v => cases v <;> simp [hs, hc, ToastMessage.isWarning]
    | error e => simp [hs, ToastMessage.isWarning, ToastMessage.isError]

/-- Witness for C8 on the empty world. -/
theorem C8_empty_scene_witness :
    rootEntities [] = [] ∧
    (serialize_scene (SaveConfig.mk none) [] (fun _ => Except.ok "ron") []).scene.entities
      = [] ∧
    ((serialize_scene (SaveConfig.mk none) [] (fun _ => Except.ok "ron") []).notifications.filter
      ToastMessage.isWarning).length = 1 := by
  have h := C8_empty_scene (SaveConfig.mk none) [] (fun _ => Except.ok "ron") [] rfl
  exact ⟨rfl, h.1, h.2.1⟩

/-- C9: with every requested entity named and a total encoder, one per-entity
pass drains the whole event queue in arrival order with no coalescing and no
deduplication — exactly one file task per event, in order, and each task's
path is the configured directory, a backslash, the entity's display name and
the extension ".scn.ron". -/
theorem C9_per_entity_paths (fuel : Nat) (pp : String) (allow : List TypeId)
    (ronOf : DynamicScene → String) (w : World) (events : List PrefabMade)
    (h : ∀ ev ∈ events, ((w.lookup ev.entity).bind (fun d => d.name)).isSome = true) :
    (serialize_prefab fuel pp allow (fun s => Except.ok (ronOf s)) w events).fileTasks.map
        Prod.fst
      = events.map (fun ev => pp ++ "\\" ++ nameOf w ev.entity ++ ".scn.ron") ∧
    (serialize_prefab fuel pp allow (fun s => Except.ok (ronOf s)) w events).errors = [] ∧
    (serialize_prefab fuel pp allow (fun s => Except.ok (ronOf s)) w events).panicMsg
      = none :=
  serialize_prefab_drain fuel pp allow ronOf w events h

/-- Witness for C9: two identical requests for the entity named "foo" produce
two file tasks with the same derived path, in order. -/
theorem C9_per_entity_paths_witness :
    (serialize_prefab 3 "dir" [] (fun _ => Except.ok "") exWorldNamed
      [PrefabMade.mk 0, PrefabMade.mk 0]).fileTasks.map Prod.fst
      = ["dir\\foo.scn.ron", "dir\\foo.scn.ron"] := by
  have h := C9_per_entity_paths 3 "dir" [] (fun _ => "") exWorldNamed
    [PrefabMade.mk 0, PrefabMade.mk 0] (by decide)
  exact h.1.trans (by rfl)

/-- C10: with no configured save path, serialize_scene silently performs no
persistence at all: no file task is spawned, the memory cache slot is left
unchanged, the state machine still returns to Idle, and the notifications are
exactly the ones an identical run with any configured destination would emit —
so none of them concerns the missing destination. -/
theorem C10_missing_path_silent (allow : List TypeId)
    (serializeRon : DynamicScene → Except String String) (w : World)
    (p : EditorPrefabPath) :
    (serialize_scene (SaveConfig.mk none) allow serializeRon w).fileTasks = [] ∧
    (serialize_scene (SaveConfig.mk none) allow serializeRon w).cacheUpdate = none ∧
    (serialize_scene (SaveConfig.mk none) allow serializeRon w).nextState
      = SaveState.Idle ∧
    (serialize_scene (SaveConfig.mk none) allow serializeRon w).notifications
      = (serialize_scene (SaveConfig.mk (some p)) allow serializeRon w).notifications := by
  simp only [serialize_scene]
  cases hs : serializeRon (extract_entities w allow (rootEntities w)) with
  | ok s => cases p <;> simp [hs]
  | error e => simp [hs]
